import Mathlib

/-!
Verification of the provider-resolution layer of binderhub
(`binderhub/repoproviders.py`), shallowly embedded in Lean 4.

Strings are modelled as `List Char`; Python `//` on integers is floor
division (`Int.fdiv`); fallible Python code is modelled with `Except`,
using an error type that records which kind of Python exception is
raised.  Network responses are supplied as explicit mock values, so the
asynchronous fetch functions become pure functions of the mocked
response.  Logging and the Prometheus gauge are effects with no bearing
on the data flow and are not modelled.
-/

set_option autoImplicit false

namespace BinderHub

/-- Strings at the character level (Python operates on `str`; for the
ASCII inputs of this layer the two views agree). -/
abbrev Str := List Char

/-! ## Python string primitives -/

/-- Split a string at the first occurrence of `sep`; `none` when `sep`
does not occur. -/
def splitAtFirst (sep : Char) : Str → Option (Str × Str)
  | [] => none
  | c :: cs =>
    if c = sep then some ([], cs)
    else
      match splitAtFirst sep cs with
      | none => none
      | some (l, r) => some (c :: l, r)

/-- Python `s.split(sep, maxsplit)` restricted to a character separator:
split at the leftmost occurrences of `sep`, at most `maxsplit` times. -/
def pySplit (sep : Char) : Str → Nat → List Str
  | cs, 0 => [cs]
  | cs, n + 1 =>
    match splitAtFirst sep cs with
    | none => [cs]
    | some (l, r) => l :: pySplit sep r n

/-- Python `s.split(sep)` (unbounded): `length` splits always suffice
because every split consumes at least the separator character. -/
def pySplitAll (sep : Char) (cs : Str) : List Str :=
  pySplit sep cs cs.length

/-- Python `s.rsplit(sep, 1)` as used by the Git provider's
`self.spec.rsplit('/', 1)`: split at the last occurrence of `sep`;
`none` models the `ValueError` raised by unpacking a 1-element list
into two targets when `sep` is absent. -/
def pyRSplit1 (sep : Char) (s : Str) : Option (Str × Str) :=
  match splitAtFirst sep s.reverse with
  | none => none
  | some (a, b) => some (b.reverse, a.reverse)

/-- Hexadecimal value of a character, upper or lower case
(`urllib.parse.unquote` accepts both). -/
def hexVal (c : Char) : Option Nat :=
  if '0' ≤ c ∧ c ≤ '9' then some (c.toNat - '0'.toNat)
  else if 'a' ≤ c ∧ c ≤ 'f' then some (c.toNat - 'a'.toNat + 10)
  else if 'A' ≤ c ∧ c ≤ 'F' then some (c.toNat - 'A'.toNat + 10)
  else none

/-- Model of `urllib.parse.unquote` at the character level: decode percent
escapes, leaving malformed escapes untouched (Python decodes via UTF-8
bytes; on ASCII input the two agree).  Written with explicit fuel so
that the recursion is structural and kernel-reducible. -/
def pyUnquoteFuel : Nat → Str → Str
  | 0, s => s
  | _ + 1, [] => []
  | fuel + 1, c :: rest =>
    if c = '%' then
      match rest with
      | a :: b :: rest' =>
        match hexVal a, hexVal b with
        | some x, some y => Char.ofNat (16 * x + y) :: pyUnquoteFuel fuel rest'
        | _, _ => c :: pyUnquoteFuel fuel rest
      | _ => c :: pyUnquoteFuel fuel rest
    else c :: pyUnquoteFuel fuel rest

/-- Entry point: every recursive step of `pyUnquoteFuel` consumes at
least one character, so `length` units of fuel are never exhausted. -/
def pyUnquote (s : Str) : Str := pyUnquoteFuel s.length s

/-- Parse a decimal integer the way Python `int(str)` does on the
well-formed inputs of this layer: an optional minus sign followed by
one or more digits. -/
def digitsVal : Str → Option Nat
  | [] => none
  | [c] => if '0' ≤ c ∧ c ≤ '9' then some (c.toNat - '0'.toNat) else none
  | c :: cs =>
    if '0' ≤ c ∧ c ≤ '9' then
      match digitsVal cs with
      | some n => some ((c.toNat - '0'.toNat) * 10 ^ cs.length + n)
      | none => none
    else none

/-- Python `int(s)` on an optionally-signed digit string; `none` models
the `ValueError` on anything else. -/
def pyInt (s : Str) : Option Int :=
  match s with
  | '-' :: rest => (digitsVal rest).map (fun n => -(n : Int))
  | _ => (digitsVal s).map (fun n => (n : Int))

/-! ## Dictionaries as ordered association lists

Python dicts preserve insertion order; at the granularity this layer
needs they are ordered key-value lists with first-match lookup. -/

/-- Python `d.get(k)` / `k in d`: first entry with the given key. -/
def dictLookup {V : Type} : List (Str × V) → Str → Option V
  | [], _ => none
  | (k', v) :: rest, k => if k' = k then some v else dictLookup rest k

/-- Python `d[k] = v`: overwrite the entry in place when the key is
present (keys in a Python dict are unique), append otherwise. -/
def dictSet {V : Type} : List (Str × V) → Str → V → List (Str × V)
  | [], k, v => [(k, v)]
  | (k', v') :: rest, k, v =>
    if k' = k then (k, v) :: rest else (k', v') :: dictSet rest k v

/-- Python `d.update(u)`: apply each entry of `u` in order. -/
def dictUpdate {V : Type} (d : List (Str × V)) (u : List (Str × V)) : List (Str × V) :=
  u.foldl (fun acc p => dictSet acc p.1 p.2) d

/-- Remove every entry with the given key (helper for the cache model). -/
def eraseKey {V : Type} : List (Str × V) → Str → List (Str × V)
  | [], _ => []
  | p :: rest, k => if p.1 = k then eraseKey rest k else p :: eraseKey rest k

/-- Value of the last entry carrying a key, across a list that may hold
duplicates; the specification-side view of sequential dict updates. -/
def lastVal {V : Type} : List (Str × V) → Str → Option V
  | [], _ => none
  | (k', v) :: rest, k =>
    match lastVal rest k with
    | some w => some w
    | none => if k' = k then some v else none

/-- Whether an `Except` value is a success (Python: no exception). -/
def isOkB {ε α : Type} : Except ε α → Bool
  | .ok _ => true
  | .error _ => false

/-! ## SHA-1 validation -/

/-- Lowercase hexadecimal digit. -/
def isLowerHexDigit (c : Char) : Bool :=
  (decide ('0' ≤ c) && decide (c ≤ '9')) || (decide ('a' ≤ c) && decide (c ≤ 'f'))

/-- Boolean form of `re.match(SHA1_PATTERN, s)`: Python `re.match` anchors
only at the start, so this is a prefix test — the string must BEGIN
with 40 lowercase hex digits but may continue arbitrarily. -/
def sha1Match (s : Str) : Bool :=
  decide (40 ≤ s.length) && (s.take 40).all isLowerHexDigit

/-- A full match of `[0-9a-f]{40}`: exactly 40 lowercase hex digits.
This is what the specification's "40-character lowercase hexadecimal
string" invariant denotes. -/
def isFullSha1 (s : Str) : Bool :=
  decide (s.length = 40) && s.all isLowerHexDigit

/-! ## Python exception kinds used by this layer -/

/-- The exceptions the resolution layer can raise, by kind; the
rate-limit `ValueError` carries the computed minutes-until-reset. -/
inductive PyErr where
  | rateLimited (minutes : Int)
  | httpPropagated (code : Nat)
  | keyError
  | valueError
  | typeError
  | attributeError
  | zeroDivision
  | permissionError
  | indexError
deriving DecidableEq, Repr

/-! ## tokenize_spec -/

/-- The `ValueError` raised by `tokenize_spec`: the message embeds the
spec, and `suggest_master` records whether the
"Did you mean .../master?" sentence is appended. -/
structure TokenizeErr where
  spec : Str
  suggest_master : Bool
deriving DecidableEq, Repr

/-- Source `tokenize_spec(spec)`: split on the first two slashes; exactly three
parts are returned, anything else raises `ValueError`, suggesting
"/master" exactly when two parts were produced and the last is not
literally "master". -/
def tokenize_spec (spec : Str) : Except TokenizeErr (Str × Str × Str) :=
  let spec_parts := pySplit '/' spec 2
  match spec_parts with
  | [a, b, c] => .ok (a, b, c)
  | parts =>
      .error ⟨spec, decide (parts.length = 2 ∧ parts.getLastD [] ≠ "master".toList)⟩

/-! ## FakeProvider and GitRepoProvider -/

/-- Source `FakeProvider.get_resolved_ref`: always the constant string
"1a2b3c4d5e6f" (12 characters); `none` would be the not-found
sentinel. -/
def fake_get_resolved_ref : Option Str :=
  some ("1a2b3c4d5e6f".toList)

/-- State built by `GitRepoProvider.__init__`. -/
structure GitProviderState where
  repo : Str
  resolved_ref : Str
  unresolved_ref : Str
deriving DecidableEq, Repr

/-- Source `GitRepoProvider.__init__(spec)`: `spec.rsplit('/', 1)` (unpacking
raises `ValueError` when no slash is present), URL-unquote the
namespace, reject an empty trailing component, then `sha1_validate` it
with `re.match` (prefix-anchored only). -/
def gitProviderInit (spec : Str) : Except PyErr GitProviderState :=
  match pyRSplit1 '/' spec with
  | none => .error .valueError
  | some (url, resolved_ref) =>
    if resolved_ref = [] then .error .valueError
    else if sha1Match resolved_ref then
      .ok ⟨pyUnquote url, resolved_ref, resolved_ref⟩
    else .error .valueError

/-- Source `GitRepoProvider.get_resolved_ref`: the sha stored at construction,
never a network call and never not-found. -/
def git_get_resolved_ref (st : GitProviderState) : Option Str :=
  some st.resolved_ref

/-! ## PolicyMatcher: is_banned / has_higher_quota / repo_config

The regex engine itself is external to the repository (Python `re`), so
an anchored case-insensitive matcher is passed in as a function
`rmatch pattern spec`; the scanning and merging logic is the code under
verification. -/

/-- A Python value as it appears in a `spec_config` item: a string, a
dict, or anything else (including the `None` produced by
`item.get(..., None)`). -/
inductive PyObj (V : Type) where
  | str : Str → PyObj V
  | dict : List (Str × V) → PyObj V
  | other : PyObj V

/-- One entry of `RepoProvider.spec_config`. -/
structure SpecConfigItem (V : Type) where
  pattern : PyObj V
  config : PyObj V

/-- The `isinstance` checks of `repo_config`: pattern must be a `str`
and config a `dict`. -/
def itemWellFormed {V : Type} (item : SpecConfigItem V) : Bool :=
  (match item.pattern with | .str _ => true | _ => false)
  && (match item.config with | .dict _ => true | _ => false)

/-- Source `RepoProvider.is_banned`: some banned pattern matches the spec. -/
def is_banned (rmatch : Str → Str → Bool) (banned_specs : List Str) (spec : Str) : Bool :=
  banned_specs.any (fun p => rmatch p spec)

/-- Source `RepoProvider.has_higher_quota`: some elevated-quota pattern
matches the spec. -/
def has_higher_quota (rmatch : Str → Str → Bool) (high_quota_specs : List Str)
    (spec : Str) : Bool :=
  high_quota_specs.any (fun p => rmatch p spec)

/-- The scanning loop of `repo_config`: for each item, first the two
`isinstance` checks (raising `ValueError` on the first bad item), then
merge the config of every matching item — no short-circuit. -/
def repoConfigGo {V : Type} (rmatch : Str → Str → Bool) (spec : Str) :
    List (SpecConfigItem V) → List (Str × V) → Except PyErr (List (Str × V))
  | [], acc => .ok acc
  | item :: rest, acc =>
    match item.pattern with
    | .str p =>
      match item.config with
      | .dict c =>
        if rmatch p spec then repoConfigGo rmatch spec rest (dictUpdate acc c)
        else repoConfigGo rmatch spec rest acc
      | _ => .error .valueError
    | _ => .error .valueError

/-- Source `RepoProvider.repo_config(settings)`: start from the quota picked by
`has_higher_quota`, then scan every `spec_config` item in declaration
order.  `settings` is the settings dict's `get` method (Python `.get`
returns `None` when absent; that default is folded into `V`). -/
def repo_config {V : Type} (rmatch : Str → Str → Bool) (high_quota_specs : List Str)
    (spec_config : List (SpecConfigItem V)) (spec : Str) (settings : Str → V) :
    Except PyErr (List (Str × V)) :=
  let quota :=
    if has_higher_quota rmatch high_quota_specs spec then
      settings ("per_repo_quota_higher".toList)
    else settings ("per_repo_quota".toList)
  repoConfigGo rmatch spec spec_config [("quota".toList, quota)]

/-- The configs of the items whose pattern matches the spec, in
declaration order (specification-side view of the scan). -/
def matchingConfigs {V : Type} (rmatch : Str → Str → Bool) (spec : Str) :
    List (SpecConfigItem V) → List (List (Str × V))
  | [] => []
  | item :: rest =>
    match item.pattern, item.config with
    | .str p, .dict c =>
      if rmatch p spec then c :: matchingConfigs rmatch spec rest
      else matchingConfigs rmatch spec rest
    | _, _ => matchingConfigs rmatch spec rest

/-! ## The GitHub-family HTTP layer

A mocked network interaction: either `client.fetch` succeeds with a
response, or it raises `tornado.httpclient.HTTPError` with a status
code and an optional attached response.  The body is left polymorphic
because the commit endpoint and the gist endpoint parse it
differently. -/

/-- A (mock) `tornado` HTTP response. -/
structure GHResponse (β : Type) where
  code : Nat
  headers : List (Str × Str)
  body : β

/-- The outcome of one `client.fetch` call. -/
inductive FetchOutcome (β : Type) where
  | success (resp : GHResponse β)
  | httpError (code : Nat) (response : Option (GHResponse β))

/-- Model of `headers.get(k)` (tornado normalises header-name case; model and
theorems use the lowercase names consistently). -/
def headersGet {β : Type} (resp : GHResponse β) (k : Str) : Option Str :=
  dictLookup resp.headers k

def xRemainingKey : Str := "x-ratelimit-remaining".toList
def xLimitKey : Str := "x-ratelimit-limit".toList
def xResetKey : Str := "x-ratelimit-reset".toList
def etagKey : Str := "ETag".toList
def shaKey : Str := "sha".toList

/-- The rate-limit bookkeeping run on every 200 and 304 response
(source lines 493-515): read the three rate-limit headers as ints
(`KeyError` / `ValueError` on failure), publish the gauge, and compute
`remaining / rate_limit` for the log level (`ZeroDivisionError` when
the limit header is 0); the response is then returned unchanged. -/
def rateLimitPost {β : Type} (resp : GHResponse β) : Except PyErr (GHResponse β) :=
  match headersGet resp xRemainingKey with
  | none => .error .keyError
  | some rs =>
    match pyInt rs with
    | none => .error .valueError
    | some _remaining =>
      match headersGet resp xLimitKey with
      | none => .error .keyError
      | some ls =>
        match pyInt ls with
        | none => .error .valueError
        | some lim =>
          match headersGet resp xResetKey with
          | none => .error .keyError
          | some ts =>
            match pyInt ts with
            | none => .error .valueError
            | some _reset =>
              if lim = 0 then .error .zeroDivision else .ok resp

/-- Source `GitHubRepoProvider.github_api_request`, as a function of the mocked
fetch outcome.  `now` is `time.time()` (an integer here; Python
truncates the float difference with `int`, which agrees on integral
times).  The cached ETag only shapes the real HTTP request, so in the
model it is absorbed into the mocked outcome.  Branches, in source
order: 304 reuses the attached response (`AttributeError` if the error
carries none); 403 with the remaining header literally "0" reads the
limit and reset headers and raises the rate-limit `ValueError` with
`5 * (1 + reset_seconds // 60 // 5)` minutes; 404 and 422 return `None`;
any other `HTTPError` is re-raised; every returned response first runs
`rateLimitPost`. -/
def github_api_request {β : Type} (now : Int) (outcome : FetchOutcome β) :
    Except PyErr (Option (GHResponse β)) :=
  match outcome with
  | .success resp => (rateLimitPost resp).map some
  | .httpError code response =>
    if code = 304 then
      match response with
      | some resp => (rateLimitPost resp).map some
      | none => .error .attributeError
    else
      match response with
      | some resp =>
        if code = 403 ∧ headersGet resp xRemainingKey = some ("0".toList) then
          match headersGet resp xLimitKey with
          | none => .error .keyError
          | some _rate_limit =>
            match headersGet resp xResetKey with
            | none => .error .keyError
            | some ts =>
              match pyInt ts with
              | none => .error .valueError
              | some reset_timestamp =>
                let reset_seconds := reset_timestamp - now
                .error (.rateLimited (5 * (1 + Int.fdiv (Int.fdiv reset_seconds 60) 5)))
        else if code = 404 ∨ code = 422 then .ok none
        else .error (.httpPropagated code)
      | none =>
        if code = 404 ∨ code = 422 then .ok none
        else .error (.httpPropagated code)

/-! ## The shared cache

Modelled from the spec: the `Cache` class lives in `binderhub/utils.py`,
which is not part of the sources under verification; spec sections 3
and 4.3 describe it as a bounded key-value store in recency order
(least-recently-touched first): `get` returns the value or absent,
`set` inserts/overwrites at the most-recent end and evicts from the
least-recent end when capacity is exceeded, and `move_to_end` is the
explicit recency refresh used on a 304. -/

/-- A cache entry: the response validator and the resolved sha. -/
structure CacheEntry where
  etag : Option Str
  sha : Str
deriving DecidableEq, Repr

/-- Modelled from the spec: the bounded recency-ordered store
(`binderhub/utils.py` `Cache`, absent from the sources). -/
structure Cache where
  max_size : Nat
  entries : List (Str × CacheEntry)
deriving DecidableEq, Repr

/-- Modelled from the spec: `Cache.get`. -/
def cacheGet (c : Cache) (k : Str) : Option CacheEntry :=
  dictLookup c.entries k

/-- Modelled from the spec: `Cache.move_to_end` — move an existing key
to the most-recently-used end without changing its value. -/
def cacheMoveToEnd (c : Cache) (k : Str) : Cache :=
  match dictLookup c.entries k with
  | none => c
  | some v => ⟨c.max_size, eraseKey c.entries k ++ [(k, v)]⟩

/-- Modelled from the spec: `Cache.set` — insert/overwrite at the
most-recently-used end, then evict from the least-recently-used end
while over capacity. -/
def cacheSet (c : Cache) (k : Str) (v : CacheEntry) : Cache :=
  let es := eraseKey c.entries k ++ [(k, v)]
  ⟨c.max_size, if c.max_size < es.length then es.drop (es.length - c.max_size) else es⟩

/-! ## GitHubRepoProvider.get_resolved_ref -/

/-- Output of one `get_resolved_ref` call on a GitHub provider
instance: the Python return-or-raise, the memo field afterwards
(`none` = the `resolved_ref` attribute is still unset), the shared
cache afterwards, and whether a network fetch was issued. -/
structure GHResolveResult where
  result : Except PyErr (Option Str)
  memo : Option (Option Str)
  cache : Cache
  fetched : Bool

/-- The body type of the commits endpoint: `json.loads` either fails
(`none`) or yields an object whose string-valued fields suffice for the
`sha` lookup. -/
abbrev CommitBody := Option (List (Str × Str))

/-- Source `GitHubRepoProvider.get_resolved_ref` as a function of the memo
field, the shared cache, and the mocked fetch outcome for the one API
URL the call builds.  Source order: memo short-circuit; cache lookup
for the ETag; `github_api_request`; `None` passes through uncached; a
304 returns the cached sha and refreshes its recency (`TypeError` if no
entry was cached — `cached['sha']` on `None`); otherwise parse the body
(`ValueError` on malformed JSON), a missing `sha` field memoizes and
returns `None`, and a present sha is memoized and written to the cache
with the response ETag. -/
def gh_get_resolved_ref (memo : Option (Option Str)) (cache : Cache) (api_url : Str)
    (now : Int) (outcome : FetchOutcome CommitBody) : GHResolveResult :=
  match memo with
  | some v => ⟨.ok v, memo, cache, false⟩
  | none =>
    let cached := cacheGet cache api_url
    match github_api_request now outcome with
    | .error e => ⟨.error e, none, cache, true⟩
    | .ok none => ⟨.ok none, none, cache, true⟩
    | .ok (some resp) =>
      if resp.code = 304 then
        match cached with
        | some entry =>
          ⟨.ok (some entry.sha), some (some entry.sha), cacheMoveToEnd cache api_url, true⟩
        | none => ⟨.error .typeError, none, cache, true⟩
      else
        match resp.body with
        | none => ⟨.error .valueError, none, cache, true⟩
        | some fields =>
          match dictLookup fields shaKey with
          | none => ⟨.ok none, some none, cache, true⟩
          | some sha =>
            ⟨.ok (some sha), some (some sha),
             cacheSet cache api_url ⟨headersGet resp etagKey, sha⟩, true⟩

/-! ## GistRepoProvider.get_resolved_ref -/

/-- One entry of the gist's `history` array; only its `version` field
is read. -/
structure GistHistoryEntry where
  version : Str
deriving DecidableEq, Repr

/-- The parsed gist metadata body: `public` flag and version history,
newest first. -/
structure GistInfo where
  public : Bool
  history : List GistHistoryEntry
deriving DecidableEq, Repr

/-- Output of one `get_resolved_ref` call on a Gist provider instance
(the gist path performs no cache access at all). -/
structure GistResolveResult where
  result : Except PyErr (Option Str)
  memo : Option (Option Str)
  fetched : Bool

/-- Source `GistRepoProvider.get_resolved_ref`: memo short-circuit; one
unconditional `github_api_request`; `ValueError` for a secret gist
without the opt-in flag; an empty or literal "master" unresolved ref
selects `all_versions[0]` (`IndexError` on an empty history!); a ref
present in the history is returned as-is and memoized; an absent ref
returns `None` without memoizing. -/
def gist_get_resolved_ref (memo : Option (Option Str)) (allow_secret_gist : Bool)
    (unresolved_ref : Str) (now : Int) (outcome : FetchOutcome (Option GistInfo)) :
    GistResolveResult :=
  match memo with
  | some v => ⟨.ok v, memo, false⟩
  | none =>
    match github_api_request now outcome with
    | .error e => ⟨.error e, none, true⟩
    | .ok none => ⟨.ok none, none, true⟩
    | .ok (some resp) =>
      match resp.body with
      | none => ⟨.error .valueError, none, true⟩
      | some ref_info =>
        if !allow_secret_gist && !ref_info.public then
          ⟨.error .permissionError, none, true⟩
        else
          let all_versions := ref_info.history.map (fun e => e.version)
          if unresolved_ref.length = 0 ∨ unresolved_ref = "master".toList then
            match all_versions with
            | [] => ⟨.error .indexError, none, true⟩
            | v :: _ => ⟨.ok (some v), some (some v), true⟩
          else
            if unresolved_ref ∈ all_versions then
              ⟨.ok (some unresolved_ref), some (some unresolved_ref), true⟩
            else ⟨.ok none, none, true⟩

/-! ## GitLabRepoProvider.get_resolved_ref -/

/-- Output of one `get_resolved_ref` call on a GitLab provider
instance. -/
structure GLResolveResult where
  result : Except PyErr (Option Str)
  memo : Option (Option Str)
  fetched : Bool

/-- Source `GitLabRepoProvider.get_resolved_ref`: memo short-circuit; one
plain `client.fetch` (no conditional request, no shared cache); an
`HTTPError` of 404 returns `None` without memoizing, any other
`HTTPError` is re-raised; the body's `id` field is the resolved ref and
is memoized (`ValueError` on malformed JSON, `KeyError` on a missing
field). -/
def gitlab_get_resolved_ref (memo : Option (Option Str))
    (outcome : FetchOutcome (Option (List (Str × Str)))) : GLResolveResult :=
  match memo with
  | some v => ⟨.ok v, memo, false⟩
  | none =>
    match outcome with
    | .httpError code _ =>
      if code = 404 then ⟨.ok none, none, true⟩
      else ⟨.error (.httpPropagated code), none, true⟩
    | .success resp =>
      match resp.body with
      | none => ⟨.error .valueError, none, true⟩
      | some ref_info =>
        match dictLookup ref_info ("id".toList) with
        | none => ⟨.error .keyError, none, true⟩
        | some i => ⟨.ok (some i), some (some i), true⟩

/-! ## Concrete example values used to exercise the model -/

/-- Well-formed rate-limit headers: remaining 10 of 60, reset at 0. -/
def okHeaders : List (Str × Str) :=
  [(xRemainingKey, "10".toList), (xLimitKey, "60".toList), (xResetKey, "0".toList)]

/-- An empty shared cache of the default capacity. -/
def emptyCache : Cache := ⟨1024, []⟩

/-- An example API URL key. -/
def apiUrlEx : Str := "https://api.github.com/repos/u/r/commits/main".toList

/-- A cached entry for `apiUrlEx`. -/
def cacheEntryEx : CacheEntry := ⟨some ("etag1".toList), "cafe".toList⟩

/-- A cache already holding `apiUrlEx`. -/
def cacheWithEntry : Cache := ⟨1024, [(apiUrlEx, cacheEntryEx)]⟩

/-- A 304 response with well-formed rate-limit headers. -/
def resp304 : GHResponse CommitBody := ⟨304, okHeaders, none⟩

/-- A 200 commit response whose body carries a sha. -/
def commitRespOk : GHResponse CommitBody := ⟨200, okHeaders, some [(shaKey, "abc".toList)]⟩

/-- A 403 response with the rate-limit-remaining header at "0" and
reset timestamp 1130. -/
def respRateLimited : GHResponse CommitBody :=
  ⟨403, [(xRemainingKey, "0".toList), (xLimitKey, "5000".toList),
         (xResetKey, "1130".toList)], none⟩

/-- A public gist with a two-entry version history. -/
def gistInfoEx : GistInfo := ⟨true, [⟨"v1abc".toList⟩, ⟨"v0abc".toList⟩]⟩

/-- A 200 gist-metadata response for `gistInfoEx`. -/
def gistRespOk : GHResponse (Option GistInfo) := ⟨200, okHeaders, some gistInfoEx⟩

/-- A public gist whose version history is empty. -/
def gistInfoEmpty : GistInfo := ⟨true, []⟩

/-- A 200 gist-metadata response for `gistInfoEmpty`. -/
def gistRespEmpty : GHResponse (Option GistInfo) := ⟨200, okHeaders, some gistInfoEmpty⟩

/-! # Theorems -/

theorem pySplit_length_le (sep : Char) : ∀ (n : Nat) (cs : Str),
    (pySplit sep cs n).length ≤ n + 1 := by
  intro n
  induction n with
  | zero => intro cs; simp [pySplit]
  | succ n ih =>
    intro cs
    simp only [pySplit]
    cases h : splitAtFirst sep cs with
    | none => simp
    | some p =>
      cases p with
      | mk l r =>
        simpa [Nat.succ_le_succ_iff] using ih r

/-- C4: `tokenize_spec` splits on the first two '/' occurrences only;
three parts are returned as-is, fewer than three parts raise a
Validation error whose message suggests appending "/master" exactly
when two parts were produced and the second is not literally "master";
the concrete examples of the spec behave as stated. -/
theorem tokenize_spec_correct (spec : Str) :
    (pySplit '/' spec 2).length ≤ 3
    ∧ (∀ a b c, pySplit '/' spec 2 = [a, b, c] → tokenize_spec spec = .ok (a, b, c))
    ∧ ((pySplit '/' spec 2).length < 3 →
        tokenize_spec spec =
          .error ⟨spec, decide ((pySplit '/' spec 2).length = 2 ∧
                                (pySplit '/' spec 2).getLastD [] ≠ "master".toList)⟩)
    ∧ tokenize_spec ("a/b/c".toList) = .ok ("a".toList, "b".toList, "c".toList)
    ∧ tokenize_spec ("a/b/c/d".toList) = .ok ("a".toList, "b".toList, "c/d".toList)
    ∧ tokenize_spec ("a/b".toList) = .error ⟨"a/b".toList, true⟩ := by
  refine ⟨pySplit_length_le '/' 2 spec, ?_, ?_, by rfl, by rfl, by rfl⟩
  · intro a b c h
    simp [tokenize_spec, h]
  · intro hlt
    unfold tokenize_spec
    cases h : pySplit '/' spec 2 with
    | nil => simp [h]
    | cons x xs =>
      cases xs with
      | nil => simp [h]
      | cons y ys =>
        cases ys with
        | nil => simp [h]
        | cons z zs =>
          exfalso
          rw [h] at hlt
          simp only [List.length_cons] at hlt
          omega

/-- Witness for C4 at a concrete input with the hypotheses discharged. -/
theorem tokenize_spec_correct_witness :
    pySplit '/' ("x/y/z".toList) 2 = ["x".toList, "y".toList, "z".toList]
    ∧ tokenize_spec ("x/y/z".toList) = .ok ("x".toList, "y".toList, "z".toList) :=
  ⟨by decide, (tokenize_spec_correct ("x/y/z".toList)).2.1 _ _ _ (by decide)⟩

/-- C5 counterexample: a spec whose trailing component is 41 hex
characters — not a full match of the 40-hex pattern — is nevertheless
accepted by `GitRepoProvider.__init__`, because `re.match` anchors only
at the start of the string. -/
theorem gitProviderInit_accepts_41_hex :
    isOkB (gitProviderInit ("ns/".toList ++ List.replicate 41 'a')) = true
    ∧ isFullSha1 (List.replicate 41 'a') = false := by
  constructor
  · rfl
  · decide

/-- C5 amended: Git provider construction succeeds iff the spec
contains a '/' and the component after the final '/' BEGINS with 40
lowercase hex characters (the validation pattern is matched as a
prefix, not anchored at the end). -/
theorem gitProviderInit_ok_iff (spec : Str) :
    isOkB (gitProviderInit spec) =
      (match pyRSplit1 '/' spec with
       | none => false
       | some (_, ref) => sha1Match ref) := by
  unfold gitProviderInit
  cases hp : pyRSplit1 '/' spec with
  | none => rfl
  | some p =>
    obtain ⟨url, ref⟩ := p
    by_cases he : ref = []
    · subst he; simp [sha1Match, isOkB]
    · simp only [he, if_false]
      cases hs : sha1Match ref <;> simp [hs, isOkB]

/-- C8 counterexample: `FakeProvider.get_resolved_ref` completes
without error yet returns neither the not-found sentinel nor a
40-character lowercase hex string (its constant value has 12
characters). -/
theorem fake_resolved_ref_not_sha1 :
    fake_get_resolved_ref ≠ none
    ∧ isFullSha1 (fake_get_resolved_ref.getD []) = false := by
  constructor
  · intro h; cases h
  · decide

/-- C8 amended: the 40-hex result invariant is not enforced globally:
the Git provider guarantees (only) a 40-hex prefix for its resolved
ref, while the Fake provider returns the constant 12-character string
"1a2b3c4d5e6f"; network-backed providers return whatever value the
API reports. -/
theorem resolution_ref_invariant_amended :
    (∀ spec st, gitProviderInit spec = Except.ok st →
        git_get_resolved_ref st = some st.resolved_ref
        ∧ sha1Match st.resolved_ref = true)
    ∧ fake_get_resolved_ref = some ("1a2b3c4d5e6f".toList) := by
  constructor
  · intro spec st h
    unfold gitProviderInit at h
    cases hp : pyRSplit1 '/' spec with
    | none => rw [hp] at h; cases h
    | some p =>
      obtain ⟨url, ref⟩ := p
      rw [hp] at h
      dsimp only at h
      split_ifs at h with he hs
      all_goals cases h
      exact ⟨rfl, hs⟩
  · rfl

theorem dictLookup_append {V : Type} (a b : List (Str × V)) (k : Str) :
    dictLookup (a ++ b) k =
      match dictLookup a k with
      | some v => some v
      | none => dictLookup b k := by
  induction a with
  | nil => simp [dictLookup]
  | cons p rest ih =>
    obtain ⟨pk, pv⟩ := p
    by_cases hk : pk = k <;> simp [dictLookup, hk, ih]

theorem dictLookup_dictSet {V : Type} (d : List (Str × V)) (k : Str) (v : V) (k' : Str) :
    dictLookup (dictSet d k v) k' = if k = k' then some v else dictLookup d k' := by
  induction d with
  | nil => rfl
  | cons p rest ih =>
    obtain ⟨pk, pv⟩ := p
    by_cases hpk : pk = k
    · subst hpk
      by_cases hk : pk = k' <;> simp [dictSet, dictLookup, hk]
    · by_cases hpk' : pk = k'
      · subst hpk'
        have hk : ¬ k = pk := fun h => hpk h.symm
        simp [dictSet, dictLookup, hpk, hk]
      · simp [dictSet, dictLookup, hpk, hpk', ih]

theorem dictLookup_dictUpdate {V : Type} (u : List (Str × V)) : ∀ (d : List (Str × V)) (k : Str),
    dictLookup (dictUpdate d u) k =
      match lastVal u k with
      | some w => some w
      | none => dictLookup d k := by
  induction u with
  | nil => intro d k; simp [dictUpdate, lastVal]
  | cons p rest ih =>
    intro d k
    obtain ⟨pk, pv⟩ := p
    show dictLookup (dictUpdate (dictSet d pk pv) rest) k = _
    rw [ih]
    cases hl : lastVal rest k with
    | some w => simp [lastVal, hl]
    | none =>
      simp only [lastVal, hl, dictLookup_dictSet]
      by_cases hk : pk = k <;> simp [hk]

theorem lastVal_cons {V : Type} (pk : Str) (pv : V) (rest : List (Str × V)) (k : Str) :
    lastVal ((pk, pv) :: rest) k =
      match lastVal rest k with
      | some w => some w
      | none => if pk = k then some pv else none := rfl

theorem lastVal_append {V : Type} (a b : List (Str × V)) (k : Str) :
    lastVal (a ++ b) k =
      match lastVal b k with
      | some w => some w
      | none => lastVal a k := by
  induction a with
  | nil => cases h : lastVal b k <;> simp [lastVal, h]
  | cons p rest ih =>
    obtain ⟨pk, pv⟩ := p
    show lastVal ((pk, pv) :: (rest ++ b)) k = _
    rw [lastVal_cons, ih, lastVal_cons]
    cases lastVal b k <;> cases lastVal rest k <;> rfl

/-- The scanning loop preserves the accumulated dict at the lookup
level: all matching configs contribute, in order, later entries
winning. -/
theorem repoConfigGo_ok {V : Type} (rmatch : Str → Str → Bool) (spec : Str) :
    ∀ (items : List (SpecConfigItem V)) (acc : List (Str × V)),
    items.all itemWellFormed = true →
    ∃ d, repoConfigGo rmatch spec items acc = .ok d ∧
      ∀ k, dictLookup d k =
        match lastVal ((matchingConfigs rmatch spec items).flatten) k with
        | some w => some w
        | none => dictLookup acc k := by
  intro items
  induction items with
  | nil =>
    intro acc _
    exact ⟨acc, rfl, fun k => by simp [matchingConfigs, lastVal]⟩
  | cons item rest ih =>
    intro acc hwf
    rw [List.all_cons, Bool.and_eq_true] at hwf
    obtain ⟨pat, cfg⟩ := item
    cases pat with
    | str p =>
      cases cfg with
      | dict c =>
        by_cases hm : rmatch p spec = true
        · obtain ⟨d, hgo, hlook⟩ := ih (dictUpdate acc c) hwf.2
          refine ⟨d, ?_, fun k => ?_⟩
          · simpa [repoConfigGo, hm] using hgo
          · rw [hlook k, dictLookup_dictUpdate]
            simp only [matchingConfigs, hm, if_true, List.flatten_cons, lastVal_append]
            cases lastVal ((matchingConfigs rmatch spec rest).flatten) k <;>
              cases lastVal c k <;> rfl
        · have hm' : rmatch p spec = false := by simpa using hm
          obtain ⟨d, hgo, hlook⟩ := ih acc hwf.2
          refine ⟨d, ?_, fun k => ?_⟩
          · simpa [repoConfigGo, hm'] using hgo
          · rw [hlook k]
            simp only [matchingConfigs, hm', Bool.false_eq_true, if_false]
      | str s => exact Bool.noConfusion hwf.1
      | other => exact Bool.noConfusion hwf.1
    | dict c => exact Bool.noConfusion hwf.1
    | other => exact Bool.noConfusion hwf.1

/-- Any ill-formed item makes the scan raise `ValueError` (the loop
reaches every item because matching does not short-circuit). -/
theorem repoConfigGo_err {V : Type} (rmatch : Str → Str → Bool) (spec : Str) :
    ∀ (items : List (SpecConfigItem V)) (acc : List (Str × V)),
    items.all itemWellFormed = false →
    repoConfigGo rmatch spec items acc = .error .valueError := by
  intro items
  induction items with
  | nil => intro acc h; simp at h
  | cons item rest ih =>
    intro acc hwf
    rw [List.all_cons, Bool.and_eq_false_iff] at hwf
    obtain ⟨pat, cfg⟩ := item
    cases pat with
    | str p =>
      cases cfg with
      | dict c =>
        have hrest : rest.all itemWellFormed = false := by
          rcases hwf with h | h
          · exact absurd h (by simp [itemWellFormed])
          · exact h
        by_cases hm : rmatch p spec = true
        · simpa [repoConfigGo, hm] using ih (dictUpdate acc c) hrest
        · have hm' : rmatch p spec = false := by simpa using hm
          simpa [repoConfigGo, hm'] using ih acc hrest
      | str s => rfl
      | other => rfl
    | dict c => rfl
    | other => rfl

/-- C6: `repo_config` starts from the quota selected by
`has_higher_quota`, scans every `spec_config` entry in declaration
order without short-circuiting, merges each matching entry's config
with later matches overwriting earlier ones on key collision while
non-overlapping keys survive (lookup in the result equals last-wins
lookup in the concatenation of the quota default and all matching
configs), and raises a `ValueError` whenever any entry's pattern is not
a string or its config is not a dict. -/
theorem repo_config_correct {V : Type} (rmatch : Str → Str → Bool)
    (high_quota_specs : List Str) (spec_config : List (SpecConfigItem V))
    (spec : Str) (settings : Str → V) :
    (spec_config.all itemWellFormed = true →
      ∃ d, repo_config rmatch high_quota_specs spec_config spec settings = .ok d ∧
        ∀ k, dictLookup d k =
          lastVal (("quota".toList,
              if has_higher_quota rmatch high_quota_specs spec then
                settings ("per_repo_quota_higher".toList)
              else settings ("per_repo_quota".toList))
            :: (matchingConfigs rmatch spec spec_config).flatten) k)
    ∧ (spec_config.all itemWellFormed = false →
        repo_config rmatch high_quota_specs spec_config spec settings =
          .error .valueError) := by
  constructor
  · intro hwf
    obtain ⟨d, hgo, hlook⟩ := repoConfigGo_ok rmatch spec spec_config
      [("quota".toList,
        if has_higher_quota rmatch high_quota_specs spec then
          settings ("per_repo_quota_higher".toList)
        else settings ("per_repo_quota".toList))] hwf
    refine ⟨d, hgo, fun k => ?_⟩
    rw [hlook k, lastVal_cons]
    cases lastVal ((matchingConfigs rmatch spec spec_config).flatten) k <;>
      simp [dictLookup, lastVal]
  · intro hwf
    exact repoConfigGo_err rmatch spec spec_config _ hwf

/-- Witness for C6: two overlapping entries matching the same spec;
the later entry's value wins on the shared key "b" and the
non-overlapping keys "a", "c" and the quota default survive. -/
theorem repo_config_correct_witness :
    ([⟨.str ("s".toList), .dict [("a".toList, 1), ("b".toList, 2)]⟩,
      ⟨.str ("s".toList), .dict [("b".toList, 3), ("c".toList, 4)]⟩] :
      List (SpecConfigItem Nat)).all itemWellFormed = true
    ∧ ∃ d, repo_config (fun p s => decide (p = s)) []
        [⟨.str ("s".toList), .dict [("a".toList, 1), ("b".toList, 2)]⟩,
         ⟨.str ("s".toList), .dict [("b".toList, 3), ("c".toList, 4)]⟩]
        ("s".toList) (fun _ => 0) = .ok d ∧
        ∀ k, dictLookup d k =
          lastVal (("quota".toList,
              if has_higher_quota (fun p s => decide (p = s)) [] ("s".toList) then
                (fun _ => 0) ("per_repo_quota_higher".toList)
              else (fun _ => 0) ("per_repo_quota".toList))
            :: (matchingConfigs (fun p s => decide (p = s)) ("s".toList)
                 [⟨.str ("s".toList), .dict [("a".toList, 1), ("b".toList, 2)]⟩,
                  ⟨.str ("s".toList), .dict [("b".toList, 3), ("c".toList, 4)]⟩]).flatten) k :=
  ⟨by rfl,
   (repo_config_correct (fun p s => decide (p = s)) []
      [⟨.str ("s".toList), .dict [("a".toList, 1), ("b".toList, 2)]⟩,
       ⟨.str ("s".toList), .dict [("b".toList, 3), ("c".toList, 4)]⟩]
      ("s".toList) (fun _ => 0)).1 (by rfl)⟩

/-- Witness for the amended C8 at a concrete accepted Git spec. -/
theorem resolution_ref_invariant_amended_witness :
    gitProviderInit ("ns/".toList ++ List.replicate 40 'a') =
      Except.ok ⟨"ns".toList, List.replicate 40 'a', List.replicate 40 'a'⟩
    ∧ (git_get_resolved_ref ⟨"ns".toList, List.replicate 40 'a', List.replicate 40 'a'⟩ =
        some (List.replicate 40 'a')
       ∧ sha1Match (List.replicate 40 'a') = true) :=
  ⟨by rfl,
   resolution_ref_invariant_amended.1 ("ns/".toList ++ List.replicate 40 'a')
     ⟨"ns".toList, List.replicate 40 'a', List.replicate 40 'a'⟩ (by rfl)⟩

/-- C1: a 403 `HTTPError` whose response carries the
rate-limit-remaining header "0" makes `github_api_request` raise the
rate-limit error (no response is returned), reporting
`5 * (1 + (resetSecondsFromNow // 60 // 5))` minutes; with a reset 130
seconds in the future that value is exactly 5. -/
theorem github_rate_limit_403 {β : Type} (now reset_ts : Int) (r : GHResponse β)
    (lim ts : Str)
    (hrem : headersGet r xRemainingKey = some ("0".toList))
    (hlim : headersGet r xLimitKey = some lim)
    (hts : headersGet r xResetKey = some ts)
    (hparse : pyInt ts = some reset_ts) :
    github_api_request now (.httpError 403 (some r)) =
      .error (.rateLimited (5 * (1 + Int.fdiv (Int.fdiv (reset_ts - now) 60) 5)))
    ∧ (reset_ts - now = 130 →
        5 * (1 + Int.fdiv (Int.fdiv (reset_ts - now) 60) 5) = 5) := by
  constructor
  · unfold github_api_request
    dsimp only
    rw [if_neg (by decide : ¬(403 : Nat) = 304)]
    rw [if_pos ⟨rfl, hrem⟩]
    rw [hlim]
    dsimp only
    rw [hts]
    dsimp only
    rw [hparse]
  · intro h
    rw [h]
    decide

/-- Witness for C1: the spec's concrete scenario — remaining "0",
reset 130 seconds from now — raises the rate-limit error reporting
5 minutes. -/
theorem github_rate_limit_403_witness :
    headersGet respRateLimited xRemainingKey = some ("0".toList)
    ∧ headersGet respRateLimited xLimitKey = some ("5000".toList)
    ∧ headersGet respRateLimited xResetKey = some ("1130".toList)
    ∧ pyInt ("1130".toList) = some 1130
    ∧ (github_api_request 1000 (.httpError 403 (some respRateLimited)) =
        .error (.rateLimited (5 * (1 + Int.fdiv (Int.fdiv ((1130 : Int) - 1000) 60) 5)))
       ∧ ((1130 : Int) - 1000 = 130 →
          5 * (1 + Int.fdiv (Int.fdiv ((1130 : Int) - 1000) 60) 5) = 5)) :=
  ⟨by rfl, by rfl, by rfl, by rfl,
   github_rate_limit_403 1000 1130 respRateLimited ("5000".toList) ("1130".toList)
     (by rfl) (by rfl) (by rfl) (by rfl)⟩

theorem dictLookup_eraseKey_self {V : Type} (l : List (Str × V)) (u : Str) :
    dictLookup (eraseKey l u) u = none := by
  induction l with
  | nil => rfl
  | cons p rest ih =>
    obtain ⟨pk, pv⟩ := p
    by_cases hpk : pk = u <;> simp [eraseKey, dictLookup, hpk, ih]

theorem dictLookup_eraseKey_ne {V : Type} (l : List (Str × V)) (u k : Str)
    (h : ¬ u = k) : dictLookup (eraseKey l u) k = dictLookup l k := by
  induction l with
  | nil => rfl
  | cons p rest ih =>
    obtain ⟨pk, pv⟩ := p
    by_cases hpk : pk = u
    · subst hpk
      simp [eraseKey, dictLookup, h, ih]
    · simp [eraseKey, dictLookup, hpk, ih]

/-- The cache operation `move_to_end` only reorders: every key still looks up to the same
value afterwards. -/
theorem cacheGet_moveToEnd (cache : Cache) (url : Str) (entry : CacheEntry)
    (hc : cacheGet cache url = some entry) :
    ∀ k, cacheGet (cacheMoveToEnd cache url) k = cacheGet cache k := by
  intro k
  unfold cacheMoveToEnd
  unfold cacheGet at hc ⊢
  rw [hc]
  dsimp only
  rw [dictLookup_append]
  by_cases hk : url = k
  · subst hk
    rw [dictLookup_eraseKey_self]
    simp [dictLookup, hc]
  · rw [dictLookup_eraseKey_ne _ _ _ hk]
    cases hl : dictLookup cache.entries k <;> simp [dictLookup, hk, hl]

/-- C2: on a 304 response for a URL with a cache entry,
`get_resolved_ref` returns the cached sha unchanged, and the only
mutation of the shared cache is the recency refresh (`move_to_end`) of
that entry — no `set` occurs and every key still looks up to the same
value. -/
theorem github_304_reuses_cache (cache : Cache) (url : Str) (now : Int)
    (entry : CacheEntry) (r : GHResponse CommitBody)
    (hc : cacheGet cache url = some entry)
    (hcode : r.code = 304)
    (hpost : rateLimitPost r = .ok r) :
    gh_get_resolved_ref none cache url now (.httpError 304 (some r)) =
      ⟨.ok (some entry.sha), some (some entry.sha), cacheMoveToEnd cache url, true⟩
    ∧ ∀ k, cacheGet (cacheMoveToEnd cache url) k = cacheGet cache k := by
  refine ⟨?_, cacheGet_moveToEnd cache url entry hc⟩
  unfold gh_get_resolved_ref
  dsimp only
  unfold github_api_request
  dsimp only
  rw [if_pos rfl, hpost]
  dsimp only [Except.map]
  rw [hcode]
  rw [if_pos rfl, hc]

/-- Witness for C2 at a concrete cache and 304 response. -/
theorem github_304_reuses_cache_witness :
    cacheGet cacheWithEntry apiUrlEx = some cacheEntryEx
    ∧ resp304.code = 304
    ∧ rateLimitPost resp304 = .ok resp304
    ∧ (gh_get_resolved_ref none cacheWithEntry apiUrlEx 0 (.httpError 304 (some resp304)) =
        ⟨.ok (some cacheEntryEx.sha), some (some cacheEntryEx.sha),
         cacheMoveToEnd cacheWithEntry apiUrlEx, true⟩
       ∧ ∀ k, cacheGet (cacheMoveToEnd cacheWithEntry apiUrlEx) k =
           cacheGet cacheWithEntry k) :=
  ⟨by rfl, by rfl, by rfl,
   github_304_reuses_cache cacheWithEntry apiUrlEx 0 cacheEntryEx resp304
     (by rfl) (by rfl) (by rfl)⟩

/-- 404 and 422 yield the not-found sentinel from the shared request
helper, whatever response object is attached. -/
theorem github_api_request_notfound {β : Type} (now : Int) (code : Nat)
    (respOpt : Option (GHResponse β)) (h : code = 404 ∨ code = 422) :
    github_api_request now (.httpError code respOpt) = .ok none := by
  rcases h with rfl | rfl <;> cases respOpt <;> simp [github_api_request]

/-- C3: 404 and 422 responses make resolution return the not-found
sentinel (no exception) with the shared cache untouched and nothing
memoized — for both the GitHub and the Gist resolver; every other
`HTTPError` status that is not 304 and not a 403 rate-limit hit is
re-raised as a transport failure. -/
theorem notfound_sentinel_and_propagation :
    (∀ (cache : Cache) (url : Str) (now : Int) (code : Nat)
        (respOpt : Option (GHResponse CommitBody)),
      (code = 404 ∨ code = 422) →
      gh_get_resolved_ref none cache url now (.httpError code respOpt) =
        ⟨.ok none, none, cache, true⟩)
    ∧ (∀ (allow : Bool) (ref : Str) (now : Int) (code : Nat)
        (respOpt : Option (GHResponse (Option GistInfo))),
      (code = 404 ∨ code = 422) →
      gist_get_resolved_ref none allow ref now (.httpError code respOpt) =
        ⟨.ok none, none, true⟩)
    ∧ (∀ (β : Type) (now : Int) (code : Nat) (respOpt : Option (GHResponse β)),
      ¬ code = 304 → ¬ code = 404 → ¬ code = 422 →
      (match respOpt with
       | some resp => ¬ (code = 403 ∧ headersGet resp xRemainingKey = some ("0".toList))
       | none => True) →
      github_api_request now (.httpError code respOpt) =
        .error (.httpPropagated code)) := by
  refine ⟨?_, ?_, ?_⟩
  · intro cache url now code respOpt h
    unfold gh_get_resolved_ref
    rw [github_api_request_notfound now code respOpt h]
  · intro allow ref now code respOpt h
    unfold gist_get_resolved_ref
    rw [github_api_request_notfound now code respOpt h]
  · intro β now code respOpt h304 h404 h422 hrl
    unfold github_api_request
    dsimp only
    rw [if_neg h304]
    cases respOpt with
    | none => simp [h404, h422]
    | some resp =>
      dsimp only at hrl ⊢
      rw [if_neg hrl, if_neg (by tauto)]

/-- Witness for C3: a 404 without attached response gives not-found on
both resolvers, and a 500 propagates. -/
theorem notfound_sentinel_and_propagation_witness :
    ((404 : Nat) = 404 ∨ (404 : Nat) = 422)
    ∧ gh_get_resolved_ref none emptyCache apiUrlEx 0
        (.httpError 404 (none : Option (GHResponse CommitBody))) =
        ⟨.ok none, none, emptyCache, true⟩
    ∧ gist_get_resolved_ref none false [] 0
        (.httpError 404 (none : Option (GHResponse (Option GistInfo)))) =
        ⟨.ok none, none, true⟩
    ∧ github_api_request 0
        (.httpError 500 (none : Option (GHResponse CommitBody))) =
        .error (.httpPropagated 500) :=
  ⟨Or.inl rfl,
   notfound_sentinel_and_propagation.1 emptyCache apiUrlEx 0 404 none (Or.inl rfl),
   notfound_sentinel_and_propagation.2.1 false [] 0 404 none (Or.inl rfl),
   notfound_sentinel_and_propagation.2.2 CommitBody 0 500 none
     (by decide) (by decide) (by decide) trivial⟩

/-- C7: once the gist metadata is fetched and the permission gate
passes, an empty or literal "master" unresolved ref selects the first
(newest) history entry, a ref present in the history is returned
as-is, and a ref absent from the history yields the not-found
sentinel. -/
theorem gist_resolution_rules (allow : Bool) (ref : Str) (now : Int)
    (r : GHResponse (Option GistInfo)) (info : GistInfo)
    (hpost : rateLimitPost r = .ok r)
    (hbody : r.body = some info)
    (hperm : (!allow && !info.public) = false) :
    ((ref.length = 0 ∨ ref = "master".toList) →
      ∀ v rest, info.history = v :: rest →
        gist_get_resolved_ref none allow ref now (.success r) =
          ⟨.ok (some v.version), some (some v.version), true⟩)
    ∧ (¬ (ref.length = 0 ∨ ref = "master".toList) →
        ref ∈ info.history.map (fun e => e.version) →
        gist_get_resolved_ref none allow ref now (.success r) =
          ⟨.ok (some ref), some (some ref), true⟩)
    ∧ (¬ (ref.length = 0 ∨ ref = "master".toList) →
        ref ∉ info.history.map (fun e => e.version) →
        gist_get_resolved_ref none allow ref now (.success r) =
          ⟨.ok none, none, true⟩) := by
  have hbase : ∀ res : GistResolveResult,
      (if ref.length = 0 ∨ ref = "master".toList then
        match info.history.map (fun e => e.version) with
        | [] => (⟨.error .indexError, none, true⟩ : GistResolveResult)
        | v :: _ => ⟨.ok (some v), some (some v), true⟩
      else if ref ∈ info.history.map (fun e => e.version) then
        (⟨.ok (some ref), some (some ref), true⟩ : GistResolveResult)
      else ⟨.ok none, none, true⟩) = res →
      gist_get_resolved_ref none allow ref now (.success r) = res := by
    intro res hres
    unfold gist_get_resolved_ref
    dsimp only
    unfold github_api_request
    dsimp only
    rw [hpost]
    dsimp only [Except.map]
    rw [hbody]
    dsimp only
    rw [if_neg (by rw [hperm]; exact Bool.noConfusion)]
    exact hres
  refine ⟨?_, ?_, ?_⟩
  · intro hsel v rest hh
    exact hbase _ (by rw [if_pos hsel, hh]; rfl)
  · intro hsel hmem
    exact hbase _ (by rw [if_neg hsel, if_pos hmem])
  · intro hsel hmem
    exact hbase _ (by rw [if_neg hsel, if_neg hmem])

/-- Witness for C7: empty unresolved ref on a two-version history
selects the newest version. -/
theorem gist_resolution_rules_witness :
    rateLimitPost gistRespOk = .ok gistRespOk
    ∧ gistRespOk.body = some gistInfoEx
    ∧ (!false && !gistInfoEx.public) = false
    ∧ (([] : Str).length = 0 ∨ ([] : Str) = "master".toList)
    ∧ gistInfoEx.history = ⟨"v1abc".toList⟩ :: [⟨"v0abc".toList⟩]
    ∧ gist_get_resolved_ref none false [] 0 (.success gistRespOk) =
        ⟨.ok (some ("v1abc".toList)), some (some ("v1abc".toList)), true⟩ :=
  ⟨by rfl, by rfl, by rfl, Or.inl rfl, by rfl,
   (gist_resolution_rules false [] 0 gistRespOk gistInfoEx
      (by rfl) (by rfl) (by rfl)).1 (Or.inl rfl) ⟨"v1abc".toList⟩ [⟨"v0abc".toList⟩] (by rfl)⟩

/-- C10: with an empty or literal "master" unresolved ref and an empty
version history, `GistRepoProvider.get_resolved_ref` raises an
`IndexError` (from `all_versions[0]`) instead of returning the
not-found sentinel. -/
theorem gist_empty_history_index_error (allow : Bool) (ref : Str) (now : Int)
    (r : GHResponse (Option GistInfo)) (info : GistInfo)
    (hpost : rateLimitPost r = .ok r)
    (hbody : r.body = some info)
    (hperm : (!allow && !info.public) = false)
    (hsel : ref.length = 0 ∨ ref = "master".toList)
    (hhist : info.history = []) :
    gist_get_resolved_ref none allow ref now (.success r) =
      ⟨.error .indexError, none, true⟩ := by
  unfold gist_get_resolved_ref
  dsimp only
  unfold github_api_request
  dsimp only
  rw [hpost]
  dsimp only [Except.map]
  rw [hbody]
  dsimp only
  rw [if_neg (by rw [hperm]; exact Bool.noConfusion)]
  rw [if_pos hsel, hhist]
  rfl

/-- Witness for C10 at a concrete empty-history gist. -/
theorem gist_empty_history_index_error_witness :
    rateLimitPost gistRespEmpty = .ok gistRespEmpty
    ∧ gistRespEmpty.body = some gistInfoEmpty
    ∧ (!false && !gistInfoEmpty.public) = false
    ∧ (([] : Str).length = 0 ∨ ([] : Str) = "master".toList)
    ∧ gistInfoEmpty.history = []
    ∧ gist_get_resolved_ref none false [] 0 (.success gistRespEmpty) =
        ⟨.error .indexError, none, true⟩ :=
  ⟨by rfl, by rfl, by rfl, Or.inl rfl, by rfl,
   gist_empty_history_index_error false [] 0 gistRespEmpty gistInfoEmpty
     (by rfl) (by rfl) (by rfl) (Or.inl rfl) (by rfl)⟩

/-- C9 counterexample: a first `get_resolved_ref` call answered 404
completes without raising (returning the not-found sentinel), yet
nothing is memoized and a second call issues a fresh network fetch —
resolution is not a no-op after the first completed call. -/
theorem notfound_not_memoized_cex :
    (gh_get_resolved_ref none emptyCache apiUrlEx 0
       (.httpError 404 (none : Option (GHResponse CommitBody)))).result = .ok none
    ∧ (gh_get_resolved_ref none emptyCache apiUrlEx 0
        (.httpError 404 (none : Option (GHResponse CommitBody)))).memo = none
    ∧ (gh_get_resolved_ref
        (gh_get_resolved_ref none emptyCache apiUrlEx 0
          (.httpError 404 (none : Option (GHResponse CommitBody)))).memo
        (gh_get_resolved_ref none emptyCache apiUrlEx 0
          (.httpError 404 (none : Option (GHResponse CommitBody)))).cache
        apiUrlEx 0
        (.httpError 404 (none : Option (GHResponse CommitBody)))).fetched = true :=
  ⟨rfl, rfl, rfl⟩

/-- C9 amended: resolution is memoized exactly when the call records a
resolved-ref value (a found sha, or GitHub's body-without-sha which
records `None`): a call that finds the memo set returns it with no
fetch and no cache access, and whenever an initial GitHub call sets the
memo its result is that very value — so repeated calls are no-ops only
after such a call; a not-found outcome is not memoized and later calls
fetch again. -/
theorem memoization_amended :
    (∀ (v : Option Str) (cache : Cache) (url : Str) (now : Int)
        (outcome : FetchOutcome CommitBody),
      gh_get_resolved_ref (some v) cache url now outcome = ⟨.ok v, some v, cache, false⟩)
    ∧ (∀ (v : Option Str) (allow : Bool) (ref : Str) (now : Int)
        (outcome : FetchOutcome (Option GistInfo)),
      gist_get_resolved_ref (some v) allow ref now outcome = ⟨.ok v, some v, false⟩)
    ∧ (∀ (v : Option Str) (outcome : FetchOutcome (Option (List (Str × Str)))),
      gitlab_get_resolved_ref (some v) outcome = ⟨.ok v, some v, false⟩)
    ∧ (∀ (cache : Cache) (url : Str) (now : Int) (outcome : FetchOutcome CommitBody)
        (v : Option Str),
      (gh_get_resolved_ref none cache url now outcome).memo = some v →
      (gh_get_resolved_ref none cache url now outcome).result = .ok v) := by
  refine ⟨fun v cache url now outcome => rfl,
          fun v allow ref now outcome => rfl,
          fun v outcome => rfl, ?_⟩
  intro cache url now outcome v h
  cases hapi : github_api_request now outcome with
  | error e => simp [gh_get_resolved_ref, hapi] at h
  | ok o =>
    cases o with
    | none => simp [gh_get_resolved_ref, hapi] at h
    | some resp =>
      by_cases h304 : resp.code = 304
      · cases hcached : cacheGet cache url with
        | none => simp [gh_get_resolved_ref, hapi, h304, hcached] at h
        | some entry =>
          simp [gh_get_resolved_ref, hapi, h304, hcached] at h ⊢
          simp [← h]
      · cases hbody : resp.body with
        | none => simp [gh_get_resolved_ref, hapi, h304, hbody] at h
        | some fields =>
          cases hsha : dictLookup fields shaKey with
          | none =>
            simp [gh_get_resolved_ref, hapi, h304, hbody, hsha] at h ⊢
            simp [← h]
          | some sha =>
            simp [gh_get_resolved_ref, hapi, h304, hbody, hsha] at h ⊢
            simp [← h]

/-- Witness for the amended C9: a successful 200 fetch memoizes the
sha it returns. -/
theorem memoization_amended_witness :
    (gh_get_resolved_ref none emptyCache apiUrlEx 0 (.success commitRespOk)).memo =
      some (some ("abc".toList))
    ∧ (gh_get_resolved_ref none emptyCache apiUrlEx 0 (.success commitRespOk)).result =
      .ok (some ("abc".toList)) :=
  ⟨by rfl,
   memoization_amended.2.2.2 emptyCache apiUrlEx 0 (.success commitRespOk)
     (some ("abc".toList)) (by rfl)⟩

end BinderHub
